import Mathlib

/-!
Verification of the AAVC_calculate_tool repository.

The numeric domain of the Python sources (IEEE doubles) is modelled by ℚ;
Lean's total division (x / 0 = 0) coincides with every division the sources
guard explicitly.  Transcendental operations (numpy sqrt / float power) are
taken as explicit function arguments of the embedded definitions, so every
definition stays computable and the theorems state exactly which properties
of those operations are used.

Embedded sources:
  src/src/AAVC_calculate_tool/calculator.py
  src/AAVC_calculate_tool/calculator.py   (free function calculate_aavc_investment)
  src/src/AAVC_calculate_tool/minus_five_percent_rule.py
  src/src/AAVC_calculate_tool/backtester.py
  src/src/AAVC_calculate_tool/plugin_loader.py
-/

/-- Calendar date, mirroring Python `datetime.date` (year, month, day). -/
structure Date where
  year : Nat
  month : Nat
  day : Nat
deriving DecidableEq, Repr

/-- Leap-year predicate of the proleptic Gregorian calendar
(`datetime`'s calendar). -/
def Date.isLeap (y : Nat) : Bool :=
  (y % 4 == 0 && y % 100 != 0) || y % 400 == 0

/-- Days in the months January .. `m` (exclusive) of a non-leap year. -/
def Date.daysBeforeMonth (m : Nat) : Nat :=
  [0, 0, 31, 59, 90, 120, 151, 181, 212, 243, 273, 304, 334].getD m 0

/-- Python `date.toordinal`: day count from 0001-01-01 (= ordinal 1). -/
def Date.toOrdinal (d : Date) : Nat :=
  let n := d.year - 1
  let leapAdj := if 2 < d.month && Date.isLeap d.year then 1 else 0
  n * 365 + n / 4 - n / 100 + n / 400 + Date.daysBeforeMonth d.month + leapAdj + d.day

/-- Python `(d2 - d1).days` as an integer. -/
def Date.daysBetween (d1 d2 : Date) : Int :=
  (d2.toOrdinal : Int) - (d1.toOrdinal : Int)

/-- Mean of a list, `np.mean`; the empty list yields 0 (0 / 0 = 0 in ℚ,
whereas numpy would produce NaN — every embedded call site is guarded so the
empty case is never reached with a different meaning). -/
def listMean (xs : List ℚ) : ℚ := xs.sum / xs.length

/-- `np.abs(np.diff(h) / h[:-1])`: element-wise |(h[i+1] - h[i]) / h[i]|. -/
def absRelChanges (h : List ℚ) : List ℚ :=
  List.zipWith (fun prev next => |(next - prev) / prev|) h h.tail

/-- Parameter dictionary of the AAVC strategies; each field's default is the
default used by `parameters.get` in `BaseAAVCStrategy.calculate_investment`
and the `_calculate_reference_price` overrides in calculator.py. -/
structure AAVCParams where
  base_amount : ℚ := 5000
  asymmetric_coefficient : ℚ := 2
  max_investment_multiplier : ℚ := 3
  investment_frequency : String := "monthly"
  ref_price : Option ℚ := none
  ref_price_reset_threshold : ℚ := 2
  ref_price_reset_factor : ℚ := 0.8
  reset_factor : ℚ := 0.85
  window_size : Nat := 200

/-- The final capping block shared verbatim by both sizing functions
(calculator.py lines 83-89 and the free function lines 44-52): negative raw
amounts clamp to 0, raw amounts above `cap` clamp to `cap`. -/
def clampInvestment (cap x : ℚ) : ℚ :=
  if x < 0 then 0
  else if x > cap then cap
  else x

theorem clampInvestment_mem (cap x : ℚ) (h : 0 ≤ cap) :
    0 ≤ clampInvestment cap x ∧ clampInvestment cap x ≤ cap := by
  unfold clampInvestment
  split_ifs <;> constructor <;> linarith

/-- `date_history[-1].month == date_history[-2].month` for a history with at
least two entries (Python compares only the month numbers, not the years). -/
def lastTwoSameMonth (dh : List Date) : Bool :=
  match dh.reverse with
  | a :: b :: _ => a.month == b.month
  | _ => false

/-- `BaseAAVCStrategy.calculate_investment` (calculator.py lines 34-89).
The subclass hook `_calculate_reference_price` is the argument `refCalc`
(already closed over the parameter dict and any mutable context). -/
def calculateInvestment (refCalc : ℚ → List ℚ → ℚ) (current_price : ℚ)
    (price_history : List ℚ) (date_history : List Date) (p : AAVCParams) : ℚ :=
  if date_history = [] then 0
  else if p.investment_frequency == "monthly" && decide (1 < date_history.length)
          && lastTwoSameMonth date_history then 0
  else if price_history = [] then 0
  else
    let reference_price := refCalc current_price price_history
    let volatility :=
      if price_history.length < 2 then 0
      else listMean (absRelChanges price_history)
    let price_change_rate :=
      if reference_price = 0 then 0
      else (reference_price - current_price) / reference_price
    let volatility_adjustment_factor := 1 + volatility / 0.01
    let adjusted_rate :=
      p.asymmetric_coefficient * price_change_rate * volatility_adjustment_factor
    let calculated_amount := p.base_amount * (1 + adjusted_rate)
    clampInvestment (p.base_amount * p.max_investment_multiplier) calculated_amount

/-- Free function `calculate_aavc_investment`
(src/AAVC_calculate_tool/calculator.py lines 3-52); the upper cap is the
hard-coded `base_amount * 3`. -/
def calculate_aavc_investment (price_path : List ℚ) (base_amount : ℚ)
    (reference_price : ℚ) (asymmetric_coefficient : ℚ) : ℚ :=
  if price_path = [] then 0
  else
    let current_price := price_path.getLast?.getD 0
    let volatility :=
      if price_path.length < 2 then 0
      else listMean (absRelChanges price_path)
    let price_change_rate :=
      if reference_price = 0 then 0
      else (reference_price - current_price) / reference_price
    let volatility_adjustment_factor := 1 + volatility / 0.01
    let adjusted_rate :=
      asymmetric_coefficient * price_change_rate * volatility_adjustment_factor
    let calculated_amount := base_amount * (1 + adjusted_rate)
    clampInvestment (base_amount * 3) calculated_amount

/-- C1: for every non-empty price history and every parameter set with
base_amount ≥ 0 and max_investment_multiplier ≥ 1, the AAVC sizing output of
`BaseAAVCStrategy.calculate_investment` (for an arbitrary reference-price
hook) lies in [0, base_amount * max_investment_multiplier]; likewise the free
function `calculate_aavc_investment` lies in [0, base_amount * 3]. -/
theorem aavc_investment_bounded
    (refCalc : ℚ → List ℚ → ℚ) (current_price : ℚ)
    (price_history : List ℚ) (date_history : List Date) (p : AAVCParams)
    (hb : 0 ≤ p.base_amount) (hm : 1 ≤ p.max_investment_multiplier)
    (price_path : List ℚ) (base_amount reference_price asym : ℚ)
    (hb2 : 0 ≤ base_amount) :
    (0 ≤ calculateInvestment refCalc current_price price_history date_history p ∧
      calculateInvestment refCalc current_price price_history date_history p ≤
        p.base_amount * p.max_investment_multiplier) ∧
    (0 ≤ calculate_aavc_investment price_path base_amount reference_price asym ∧
      calculate_aavc_investment price_path base_amount reference_price asym ≤
        base_amount * 3) := by
  have hcap : 0 ≤ p.base_amount * p.max_investment_multiplier :=
    mul_nonneg hb (le_trans zero_le_one hm)
  have hcap2 : 0 ≤ base_amount * 3 := by positivity
  constructor
  · unfold calculateInvestment
    split_ifs <;>
      first
        | exact ⟨le_rfl, hcap⟩
        | exact clampInvestment_mem _ _ hcap
  · unfold calculate_aavc_investment
    split_ifs <;>
      first
        | exact ⟨le_rfl, hcap2⟩
        | exact clampInvestment_mem _ _ hcap2

/-- Witness for C1 at a concrete input (defaults: base 5000, multiplier 3). -/
theorem aavc_investment_bounded_witness :
    (0 ≤ ({} : AAVCParams).base_amount ∧ 1 ≤ ({} : AAVCParams).max_investment_multiplier ∧
      0 ≤ (100 : ℚ)) ∧
    ((0 ≤ calculateInvestment (fun _ h => h.headI) 90 [100, 90]
        [⟨2023, 1, 3⟩, ⟨2023, 2, 1⟩] {} ∧
      calculateInvestment (fun _ h => h.headI) 90 [100, 90]
        [⟨2023, 1, 3⟩, ⟨2023, 2, 1⟩] {} ≤
        ({} : AAVCParams).base_amount * ({} : AAVCParams).max_investment_multiplier) ∧
    (0 ≤ calculate_aavc_investment [100, 90] 100 100 2 ∧
      calculate_aavc_investment [100, 90] 100 100 2 ≤ 100 * 3)) :=
  ⟨⟨by norm_num [AAVCParams.base_amount], by norm_num [AAVCParams.max_investment_multiplier],
    by norm_num⟩,
    aavc_investment_bounded (fun _ h => h.headI) 90 [100, 90]
      [⟨2023, 1, 3⟩, ⟨2023, 2, 1⟩] {} (by norm_num [AAVCParams.base_amount])
      (by norm_num [AAVCParams.max_investment_multiplier])
      [100, 90] 100 100 2 (by norm_num)⟩

/-- `AAVCHighestPriceResetStrategy._calculate_reference_price`
(calculator.py lines 217-243).  The mutable `_strategy_context` holds the
pair (`_highest_price_seen`, `_current_effective_ref_price`); `none` models
the dictionary before initialization.  Returns the new context and the
reference price. -/
def hprStep (ctx : Option (ℚ × ℚ)) (current_price : ℚ)
    (price_history : List ℚ) (reset_factor : ℚ) : (ℚ × ℚ) × ℚ :=
  let st :=
    match ctx with
    | some hr => hr
    | none =>
        match price_history with
        | [] => (0, 0)
        | h :: _ => (h, h * reset_factor)
  if current_price > st.1 then
    ((current_price, current_price * reset_factor), current_price * reset_factor)
  else (st, st.2)

/-- Feed a list of prices sequentially through `hprStep`, the way
`_run_single_algorithm_backtest` does: call i receives the history prefix
`prices[:i+1]` and `prices[i]` as the current price, and the context
persists between calls.  Returns the sequence of reference prices. -/
def hprRefSeqAux (ctx : Option (ℚ × ℚ)) (seen rest : List ℚ) (f : ℚ) : List ℚ :=
  match rest with
  | [] => []
  | price :: ps =>
      let seen' := seen ++ [price]
      let out := hprStep ctx price seen' f
      out.2 :: hprRefSeqAux (some out.1) seen' ps f

def hprRefSequence (prices : List ℚ) (f : ℚ) : List ℚ :=
  hprRefSeqAux none [] prices f

/-- C2 counterexample: feeding [100, 105, 110] into the Highest-Price-Reset
policy with reset_factor = 0.85 does NOT yield [85.0, 85.0, 93.5] — the
price 105 already sets a new running maximum, so the second reference price
is 105 * 0.85 = 89.25, not 85.0. -/
theorem hpr_sequence_counterexample :
    hprRefSequence [100, 105, 110] 0.85 ≠ [85, 85, 93.5] ∧
    (hprRefSequence [100, 105, 110] 0.85).getD 1 0 = 89.25 := by
  constructor <;> norm_num [hprRefSequence, hprRefSeqAux, hprStep]

/-- C2 amended: feeding [100, 105, 110] sequentially with
reset_factor = 0.85 yields the effective reference price sequence
[85.0, 89.25, 93.5] — the reference resets at each new running maximum
(105 and 110), not only at 110. -/
theorem hpr_sequence_amended :
    hprRefSequence [100, 105, 110] 0.85 = [85, 89.25, 93.5] := by
  norm_num [hprRefSequence, hprRefSeqAux, hprStep]

/-- `DCAStrategy.calculate_investment` (calculator.py lines 266-287). -/
def dcaCalculateInvestment (current_price : ℚ) (price_history : List ℚ)
    (date_history : List Date) (base_amount : ℚ)
    (investment_frequency : String) : ℚ :=
  if date_history = [] then 0
  else if investment_frequency == "monthly" && decide (1 < date_history.length)
          && lastTwoSameMonth date_history then 0
  else base_amount

/-- C3: under monthly frequency both the AAVC family (any reference hook)
and DCA return 0 whenever the date history has at least two entries and the
last two dates share the same month number; both also return 0 on an empty
date history; and DCA invests exactly base_amount whenever the monthly gate
passes (in particular on the very first period). -/
theorem monthly_gate_zero
    (refCalc : ℚ → List ℚ → ℚ) (current_price : ℚ)
    (price_history : List ℚ) (date_history : List Date) (p : AAVCParams)
    (base_amount : ℚ)
    (hfreq : p.investment_frequency = "monthly")
    (hlen : 2 ≤ date_history.length)
    (hsame : lastTwoSameMonth date_history = true) :
    calculateInvestment refCalc current_price price_history date_history p = 0 ∧
    dcaCalculateInvestment current_price price_history date_history
      base_amount "monthly" = 0 ∧
    (∀ ph : List ℚ, ∀ cp : ℚ,
      calculateInvestment refCalc cp ph [] p = 0 ∧
      dcaCalculateInvestment cp ph [] base_amount "monthly" = 0) ∧
    (∀ dh : List Date, dh ≠ [] →
      (dcaCalculateInvestment current_price price_history dh base_amount
          "monthly" = 0 ↔
        (1 < dh.length ∧ lastTwoSameMonth dh = true) ∨ base_amount = 0)) := by
  have hne : date_history ≠ [] := by
    intro h; rw [h] at hlen; simp at hlen
  refine ⟨?_, ?_, ?_, ?_⟩
  · unfold calculateInvestment
    rw [if_neg hne, if_pos]
    simp [hfreq, hsame]
    omega
  · unfold dcaCalculateInvestment
    rw [if_neg hne, if_pos]
    simp [hsame]
    omega
  · intro ph cp
    constructor <;> simp [calculateInvestment, dcaCalculateInvestment]
  · intro dh hdh
    unfold dcaCalculateInvestment
    rw [if_neg hdh]
    by_cases hc : (1 < dh.length ∧ lastTwoSameMonth dh = true)
    · rw [if_pos]
      · simp [hc]
      · simp [hc.1, hc.2]
    · rw [if_neg]
      · constructor
        · intro hb; exact Or.inr hb
        · intro hb
          rcases hb with hb | hb
          · exact absurd hb hc
          · exact hb
      · simp only [Bool.and_eq_true, beq_iff_eq, decide_eq_true_eq]
        intro hcon
        exact hc ⟨hcon.1.2, hcon.2⟩

/-- Witness for C3 at concrete inputs: two January dates gate to 0;
a month change lets DCA invest. -/
theorem monthly_gate_zero_witness :
    (({} : AAVCParams).investment_frequency = "monthly" ∧
      2 ≤ ([⟨2023, 1, 3⟩, ⟨2023, 1, 4⟩] : List Date).length ∧
      lastTwoSameMonth [⟨2023, 1, 3⟩, ⟨2023, 1, 4⟩] = true) ∧
    calculateInvestment (fun _ h => h.headI) 100 [100, 101]
      [⟨2023, 1, 3⟩, ⟨2023, 1, 4⟩] {} = 0 ∧
    dcaCalculateInvestment 100 [100, 101] [⟨2023, 1, 3⟩, ⟨2023, 1, 4⟩]
      5000 "monthly" = 0 := by
  have h := monthly_gate_zero (fun _ h => h.headI) 100 [100, 101]
    [⟨2023, 1, 3⟩, ⟨2023, 1, 4⟩] {} 5000 rfl (by decide) (by decide)
  exact ⟨⟨rfl, by decide, by decide⟩, h.1, h.2.1⟩

/-- The lookback loop of `MinusFivePercentRuleStrategy.calculate_investment`
(minus_five_percent_rule.py lines 68-73): scan indices idx-1, idx-2, ..., 0
and return `price_history[i]` for the first i whose date's month differs
from the current month.  The first argument is the exclusive upper bound
(`current_date_index`). -/
def findPrevMonthClose : Nat → List Date → List ℚ → Nat → Option ℚ
  | 0, _, _, _ => none
  | Nat.succ i, dh, ph, m =>
      if (dh.getD i ⟨1, 1, 1⟩).month ≠ m then some (ph.getD i 0)
      else findPrevMonthClose i dh ph m

/-- `MinusFivePercentRuleStrategy.calculate_investment`
(minus_five_percent_rule.py lines 29-83).  Note that
`current_date_index = len(date_history) - 1` (line 44), so the first
monthly check-day test (line 54) compares the index with itself and is
always true; the look-ahead branch (lines 56-58) is unreachable.  On an
empty date history with two prices Python would raise IndexError at
`date_history[-1]`; that point is modelled as 0 and is unreachable from the
backtester, which always passes equal-length non-empty prefixes. -/
def minusFiveCalculateInvestment (current_price : ℚ) (price_history : List ℚ)
    (date_history : List Date) (base_amount drop_percentage : ℚ)
    (investment_frequency : String) : ℚ :=
  if price_history.length < 2 then 0
  else
    match date_history.getLast? with
    | none => 0
    | some current_date =>
        let idx := date_history.length - 1
        let is_check_day :=
          if investment_frequency == "daily" then true
          else if investment_frequency == "monthly" then
            if idx == date_history.length - 1 then true
            else if decide (idx + 1 < date_history.length) &&
                ((date_history.getD (idx + 1) ⟨1, 1, 1⟩).month != current_date.month)
              then true
            else false
          else false
        if !is_check_day then 0
        else
          match findPrevMonthClose idx date_history price_history
              current_date.month with
          | none => 0
          | some prev =>
              if prev > 0 ∧ (prev - current_price) / prev ≥ drop_percentage then
                base_amount
              else 0

/-- C4 (code bug): in the backtest dataset with dates
[2022-12-30, 2023-01-05, 2023-01-06] and prices [100, 90, 95], the period
2023-01-05 is neither the last trading day of January (2023-01-06 follows
in the same month) nor the final period of the dataset, yet the monthly
minus-five-percent rule invests base_amount = 10000 there: the simulator
hands the strategy the prefix ([100, 90], [2022-12-30, 2023-01-05]) and the
vacuous index test at line 54 marks every period a check day, so the 10%
drop from the December close triggers a purchase. -/
theorem minus_five_invests_mid_month :
    minusFiveCalculateInvestment 90 [100, 90]
      [⟨2022, 12, 30⟩, ⟨2023, 1, 5⟩] 10000 0.05 "monthly" = 10000 := by
  norm_num [minusFiveCalculateInvestment, findPrevMonthClose]

/-- The reset rule of `AAVCDynamicStrategy._calculate_reference_price`
(calculator.py lines 130-131): reset to `current * factor` when
`current > eff * threshold`, otherwise keep `eff`. -/
def dynNextRef (eff current threshold factor : ℚ) : ℚ :=
  if current > eff * threshold then current * factor else eff

/-- `AAVCDynamicStrategy._calculate_reference_price`
(calculator.py lines 115-134).  The strategy context holds the effective
reference price (`none` before the first call); the returned price is also
the value stored back into the context. -/
def dynCalcRefPrice (ctx : Option ℚ) (current_price : ℚ)
    (price_history : List ℚ) (p : AAVCParams) : ℚ :=
  let eff0 :=
    match ctx with
    | some e => e
    | none =>
        match p.ref_price with
        | some r => r
        | none => price_history.headI
  dynNextRef eff0 current_price p.ref_price_reset_threshold
    p.ref_price_reset_factor

/-- Effective reference price after a whole run of calls with the default
threshold 2.0 and factor 0.8 (each call stores its result, which seeds the
next call). -/
def dynRefAfter (start : ℚ) (prices : List ℚ) : ℚ :=
  prices.foldl (fun e c => dynNextRef e c 2 0.8) start

/-- Helper: a `dynNextRef` step with nonnegative current price never
decreases the reference. -/
theorem dynNextRef_mono (e x : ℚ) (hx : 0 ≤ x) : e ≤ dynNextRef e x 2 0.8 := by
  unfold dynNextRef
  split_ifs with h
  · nlinarith
  · exact le_rfl

/-- Helper: folding `dynNextRef` over any list of nonnegative prices never
decreases the stored reference. -/
theorem dynRefAfter_mono (prices : List ℚ) :
    ∀ start : ℚ, (∀ x ∈ prices, 0 ≤ x) → start ≤ dynRefAfter start prices := by
  induction prices with
  | nil => intro start _; exact le_rfl
  | cons x xs ih =>
      intro start hp
      have hx : 0 ≤ x := hp x (List.mem_cons_self x xs)
      have hxs : ∀ y ∈ xs, 0 ≤ y := fun y hy => hp y (List.mem_cons_of_mem x hy)
      exact le_trans (dynNextRef_mono start x hx)
        (ih (dynNextRef start x 2 0.8) hxs)

/-- C7: with the default threshold 2.0 and reset factor 0.8 the dynamic
policy's stored reference is a monotonic ratchet over nonnegative prices:
one call with the context seeded behaves exactly like `dynNextRef`; a step
never decreases the reference; the reference changes only when
current > eff * 2 and then equals current * 0.8; and across any sequence of
calls the stored reference never drops below its starting value. -/
theorem dyn_ref_ratchet (eff c : ℚ) (hc : 0 ≤ c) (start : ℚ)
    (prices : List ℚ) (hp : ∀ x ∈ prices, 0 ≤ x)
    (history : List ℚ) :
    dynCalcRefPrice (some eff) c history {} = dynNextRef eff c 2 0.8 ∧
    eff ≤ dynNextRef eff c 2 0.8 ∧
    (dynNextRef eff c 2 0.8 ≠ eff →
      eff * 2 < c ∧ dynNextRef eff c 2 0.8 = c * 0.8) ∧
    (¬ eff * 2 < c → dynNextRef eff c 2 0.8 = eff) ∧
    start ≤ dynRefAfter start prices := by
  refine ⟨rfl, dynNextRef_mono eff c hc, ?_, ?_, dynRefAfter_mono prices start hp⟩
  · intro hne
    unfold dynNextRef at hne ⊢
    split_ifs at hne ⊢ with h
    · exact ⟨h, rfl⟩
    · exact absurd rfl hne
  · intro h
    unfold dynNextRef
    rw [if_neg h]

/-- Witness for C7: a rally from 100 to 250 resets to 200; a whole run over
[50, 300] never drops below the initial reference. -/
theorem dyn_ref_ratchet_witness :
    (0 ≤ (250 : ℚ) ∧ ∀ x ∈ ([50, 300] : List ℚ), 0 ≤ x) ∧
    dynCalcRefPrice (some 100) 250 [100] {} = dynNextRef 100 250 2 0.8 ∧
    (100 : ℚ) ≤ dynNextRef 100 250 2 0.8 ∧
    (100 : ℚ) ≤ dynRefAfter 100 [50, 300] := by
  have hc : 0 ≤ (250 : ℚ) := by norm_num
  have hp : ∀ x ∈ ([50, 300] : List ℚ), 0 ≤ x := by
    intro x hx
    simp only [List.mem_cons, List.not_mem_nil, or_false] at hx
    rcases hx with h | h <;> rw [h] <;> norm_num
  have h := dyn_ref_ratchet 100 250 hc 100 [50, 300] hp [100]
  exact ⟨⟨hc, hp⟩, h.1, h.2.1, h.2.2.2.2⟩

/-- Maximum of a nonempty list, Python `max(price_history)`. -/
def listMax : List ℚ → ℚ
  | [] => 0
  | h :: t => t.foldl max h

/-- Helper: `listMax` of a nonempty list is attained and dominates every
element. -/
theorem listMax_spec (h : ℚ) (t : List ℚ) :
    (t.foldl max h = h ∨ t.foldl max h ∈ t) ∧
    (h ≤ t.foldl max h ∧ ∀ x ∈ t, x ≤ t.foldl max h) := by
  induction t generalizing h with
  | nil => exact ⟨Or.inl rfl, le_rfl, by intro x hx; cases hx⟩
  | cons a l ih =>
      have ihm := ih (max h a)
      constructor
      · rcases ihm.1 with he | he
        · rcases max_choice h a with hm | hm
          · exact Or.inl (by rw [List.foldl_cons, he, hm])
          · exact Or.inr (by rw [List.foldl_cons, he, hm]; exact List.mem_cons_self a l)
        · exact Or.inr (List.mem_cons_of_mem a he)
      · refine ⟨le_trans (le_max_left h a) ihm.2.1, ?_⟩
        intro x hx
        rcases List.mem_cons.mp hx with hx | hx
        · rw [hx]; exact le_trans (le_max_right h a) ihm.2.1
        · exact ihm.2.2 x hx

/-- Modelled from the spec: the class `AAVCHighestInHistoryStrategy` is
imported by notification_sender.py and exercised by tests/test_calculator.py
but its definition is absent from the sources.  Per the spec, its
`_calculate_reference_price` recomputes the reference fresh on every call as
the maximum of the entire price-history argument times `reset_factor`, keeps
no persisted running maximum in the strategy context, and returns 0.0 on an
empty history.  The strategy context is threaded explicitly (and returned
untouched) to express statelessness. -/
def highestInHistoryRefPrice (ctx : List (String × ℚ)) (current_price : ℚ)
    (price_history : List ℚ) (reset_factor : ℚ) : List (String × ℚ) × ℚ :=
  match price_history with
  | [] => (ctx, 0)
  | _ :: _ => (ctx, listMax price_history * reset_factor)

/-- C9: the Highest-in-Current-History policy leaves the strategy context
untouched, its output is independent of the context and of the current-price
argument (it is recomputed fresh from the history alone), an empty history
yields reference 0.0, and a non-empty history yields m * reset_factor where
m is an element of the history dominating every element (the maximum). -/
theorem highest_in_history_fresh (ctx ctx' : List (String × ℚ))
    (cp cp' f : ℚ) (h : List ℚ) (hne : h ≠ []) :
    (highestInHistoryRefPrice ctx cp h f).1 = ctx ∧
    (highestInHistoryRefPrice ctx cp h f).2 =
      (highestInHistoryRefPrice ctx' cp' h f).2 ∧
    (highestInHistoryRefPrice ctx cp [] f).2 = 0 ∧
    (∃ m ∈ h, (highestInHistoryRefPrice ctx cp h f).2 = m * f ∧
      ∀ x ∈ h, x ≤ m) := by
  refine ⟨?_, ?_, rfl, ?_⟩
  · cases h with
    | nil => rfl
    | cons a t => rfl
  · cases h with
    | nil => rfl
    | cons a t => rfl
  · cases h with
    | nil => exact absurd rfl hne
    | cons a t =>
        have hs := listMax_spec a t
        refine ⟨t.foldl max a, ?_, rfl, ?_⟩
        · rcases hs.1 with he | he
          · rw [he]; exact List.mem_cons_self a t
          · exact List.mem_cons_of_mem a he
        · intro x hx
          rcases List.mem_cons.mp hx with hx | hx
          · rw [hx]; exact hs.2.1
          · exact hs.2.2 x hx

/-- Witness for C9 at the test vector [100, 120, 110] with factor 0.85. -/
theorem highest_in_history_fresh_witness :
    (([100, 120, 110] : List ℚ) ≠ []) ∧
    (highestInHistoryRefPrice [] 110 [100, 120, 110] 0.85).1 = [] ∧
    (∃ m ∈ ([100, 120, 110] : List ℚ),
      (highestInHistoryRefPrice [] 110 [100, 120, 110] 0.85).2 = m * 0.85 ∧
      ∀ x ∈ ([100, 120, 110] : List ℚ), x ≤ m) := by
  have h := highest_in_history_fresh [] [("k", 1)] 110 0 0.85 [100, 120, 110]
    (by simp)
  exact ⟨by simp, h.1, h.2.2.2⟩

/-- Performance metrics record returned by
`_calculate_performance_metrics` (backtester.py lines 95-164);
`sharpe` models the dictionary key sharpe_ratio. -/
structure PerfMetrics where
  final_value : ℚ
  total_invested : ℚ
  total_return : ℚ
  annual_return : ℚ
  max_drawdown : ℚ
  volatility : ℚ
  sharpe : ℚ
deriving DecidableEq, Repr

/-- One simple-return entry (backtester.py lines 138-142): guarded division
by the previous portfolio value. -/
def simpleReturn (prev next : ℚ) : ℚ :=
  if prev ≠ 0 then (next - prev) / prev else 0

/-- The simple-returns list of a portfolio history (lines 137-143). -/
def computeReturns (ph : List ℚ) : List ℚ :=
  List.zipWith simpleReturn ph ph.tail

/-- Population variance, the square of `np.std` (ddof = 0). -/
def variance (xs : List ℚ) : ℚ :=
  listMean (xs.map (fun x => (x - listMean xs) ^ 2))

/-- Loop body of `_calculate_max_drawdown` (backtester.py lines 175-183):
state is (peak, max_dd). -/
def drawdownStep (st : ℚ × ℚ) (value : ℚ) : ℚ × ℚ :=
  let peak := if value > st.1 then value else st.1
  let drawdown := if peak = 0 then 0 else (peak - value) / peak
  (peak, max st.2 drawdown)

/-- `_calculate_max_drawdown` (backtester.py lines 167-185). -/
def calculateMaxDrawdown (ph : List ℚ) : ℚ :=
  match ph with
  | [] => 0
  | h :: _ => (ph.foldl drawdownStep (h, 0)).2 * 100

/-- `(dates[-1] - dates[0]).days / 365.25 if len(dates) > 1 else 0`
(backtester.py line 123). -/
def yearsBetween (dates : List Date) : ℚ :=
  if 1 < dates.length then
    ((Date.daysBetween (dates.head?.getD ⟨1, 1, 1⟩)
        (dates.getLast?.getD ⟨1, 1, 1⟩) : ℤ) : ℚ) / 365.25
  else 0

/-- Excess returns over the hard-coded risk-free rate
(backtester.py lines 150-151). -/
def excessReturns (ph : List ℚ) : List ℚ :=
  (computeReturns ph).map (fun r => r - 0.02 / 252)

/-- `_calculate_performance_metrics` (backtester.py lines 95-164).
`sqrtFn` stands for `np.sqrt` (so `sqrtFn (variance xs)` is `np.std(xs)`)
and `rpowFn a b` for the float power `a ** b`; both are arguments so that
the embedding stays computable, and the theorems only use the branch
structure around them. -/
def calculatePerformanceMetrics (sqrtFn : ℚ → ℚ) (rpowFn : ℚ → ℚ → ℚ)
    (portfolio_history investment_history : List ℚ)
    (dates : List Date) : PerfMetrics :=
  let final_value := portfolio_history.getLast?.getD 0
  let total_invested := investment_history.sum
  if total_invested = 0 ∨ portfolio_history.length < 2 then
    ⟨final_value, total_invested, 0, 0, 0, 0, 0⟩
  else
    let total_return :=
      if total_invested > 0 then (final_value / total_invested - 1) * 100 else 0
    let years := yearsBetween dates
    let annual_return :=
      if years > 0 ∧ total_invested > 0 then
        if final_value / total_invested ≥ 0 then
          (rpowFn (final_value / total_invested) (1 / years) - 1) * 100
        else 0
      else 0
    let max_drawdown := calculateMaxDrawdown portfolio_history
    let returns := computeReturns portfolio_history
    let volatility :=
      if 0 < returns.length then sqrtFn (variance returns) * sqrtFn 252 * 100
      else 0
    let excess := excessReturns portfolio_history
    let sharpe :=
      if sqrtFn (variance excess) > 0 then
        listMean excess / sqrtFn (variance excess) * sqrtFn 252
      else 0
    ⟨final_value, total_invested, total_return, annual_return, max_drawdown,
      volatility, sharpe⟩

/-- Helper: the drawdown fold started at an all-zero state over an all-zero
history stays at the zero state. -/
theorem drawdown_fold_zero (n : Nat) :
    (List.replicate n (0 : ℚ)).foldl drawdownStep (0, 0) = (0, 0) := by
  induction n with
  | zero => rfl
  | succ k ih =>
      rw [List.replicate_succ, List.foldl_cons]
      have hstep : drawdownStep ((0 : ℚ), (0 : ℚ)) 0 = (0, 0) := by
        unfold drawdownStep
        norm_num
      rw [hstep, ih]

/-- C5: the performance-metric computation is a total function whose guarded
ratios all degrade to 0: when total invested capital is 0 every derived
metric is 0; when the elapsed-years quantity is not positive the annualized
return is 0; a simple-return step with previous portfolio value 0 is 0; the
max drawdown of an all-zero portfolio history (running peak 0 throughout)
is 0; and when the standard deviation of the excess returns is 0 the Sharpe
value is 0. -/
theorem metrics_degrade_to_zero (sqrtFn : ℚ → ℚ) (rpowFn : ℚ → ℚ → ℚ)
    (ph inv : List ℚ) (dates : List Date) (next : ℚ) (n : Nat)
    (hz : inv.sum = 0) (hy : yearsBetween dates ≤ 0)
    (hstd : sqrtFn (variance (excessReturns ph)) = 0) :
    calculatePerformanceMetrics sqrtFn rpowFn ph inv dates =
      ⟨ph.getLast?.getD 0, 0, 0, 0, 0, 0, 0⟩ ∧
    (∀ ph' inv' : List ℚ,
      (calculatePerformanceMetrics sqrtFn rpowFn ph' inv' dates).annual_return
        = 0) ∧
    simpleReturn 0 next = 0 ∧
    calculateMaxDrawdown (List.replicate n 0) = 0 ∧
    (∀ inv' : List ℚ,
      (calculatePerformanceMetrics sqrtFn rpowFn ph inv' dates).sharpe = 0) := by
  refine ⟨?_, ?_, ?_, ?_, ?_⟩
  · unfold calculatePerformanceMetrics
    rw [hz, if_pos (Or.inl rfl)]
  · intro ph' inv'
    simp only [calculatePerformanceMetrics, apply_ite PerfMetrics.annual_return]
    split_ifs with h1 h2 h3 <;>
      first
        | rfl
        | exact absurd h2.1 (not_lt.mpr hy)
  · unfold simpleReturn
    norm_num
  · unfold calculateMaxDrawdown
    cases n with
    | zero => rfl
    | succ k =>
        rw [List.replicate_succ]
        show ((List.replicate (k + 1) (0 : ℚ)).foldl drawdownStep (0, 0)).2 * 100 = 0
        rw [drawdown_fold_zero]
        norm_num
  · intro inv'
    simp only [calculatePerformanceMetrics, apply_ite PerfMetrics.sharpe]
    split_ifs with h1 h2
    · rfl
    · rw [hstd] at h2
      exact absurd h2 (lt_irrefl 0)
    · rfl

/-- Witness for C5: portfolio [1, 2], net-zero investments [5, -5], a
one-day date range collapsed to a single calendar day, sqrt taken as the
identity on the (zero) variance of the single excess return. -/
theorem metrics_degrade_to_zero_witness :
    (([5, -5] : List ℚ).sum = 0 ∧
      yearsBetween [⟨2023, 1, 1⟩, ⟨2023, 1, 1⟩] ≤ 0 ∧
      id (variance (excessReturns [1, 2])) = 0) ∧
    calculatePerformanceMetrics id (fun a _ => a) [1, 2] [5, -5]
      [⟨2023, 1, 1⟩, ⟨2023, 1, 1⟩] = ⟨2, 0, 0, 0, 0, 0, 0⟩ ∧
    simpleReturn 0 7 = 0 ∧
    calculateMaxDrawdown (List.replicate 3 0) = 0 := by
  have hz : ([5, -5] : List ℚ).sum = 0 := by norm_num
  have hy : yearsBetween [⟨2023, 1, 1⟩, ⟨2023, 1, 1⟩] ≤ 0 := by
    norm_num [yearsBetween, Date.daysBetween]
  have hstd : id (variance (excessReturns [1, 2])) = 0 := by
    norm_num [variance, excessReturns, computeReturns, simpleReturn, listMean]
  have h := metrics_degrade_to_zero id (fun a _ => a) [1, 2] [5, -5]
    [⟨2023, 1, 1⟩, ⟨2023, 1, 1⟩] 7 3 hz hy hstd
  exact ⟨⟨hz, hy, hstd⟩, h.1, h.2.2.1, h.2.2.2.1⟩

/-- Pearson correlation coefficient of two equal-length series,
`np.corrcoef(x, y)[0, 1]`: covariance over the product of the standard
deviations (`sqrtFn` of the variances).  In ℚ no NaN exists, so the
`np.isnan` fallback of backtester.py line 287 has no effect here. -/
def corrcoefQ (sqrtFn : ℚ → ℚ) (xs ys : List ℚ) : ℚ :=
  listMean (List.zipWith (fun a b => (a - listMean xs) * (b - listMean ys)) xs ys) /
    (sqrtFn (variance xs) * sqrtFn (variance ys))

/-- Body of the double loop of `_calculate_correlations`
(backtester.py lines 261-288) for row i and column j over the list of
(name, portfolio_history) results: 1.0 on the diagonal, 0.0 when the
truncated histories are empty, 0.0 when either truncated history has zero
standard deviation, else the Pearson coefficient. -/
def corrEntry (sqrtFn : ℚ → ℚ) (results : List (String × List ℚ))
    (i j : Nat) : ℚ :=
  if i = j then 1
  else
    let history1 := (results[i]?.getD ("", [])).2
    let history2 := (results[j]?.getD ("", [])).2
    let min_len := min history1.length history2.length
    if min_len = 0 then 0
    else
      let t1 := history1.take min_len
      let t2 := history2.take min_len
      if sqrtFn (variance t1) = 0 ∨ sqrtFn (variance t2) = 0 then 0
      else corrcoefQ sqrtFn t1 t2

/-- `_calculate_correlations` (backtester.py lines 253-289): the full
name-keyed matrix assembled from `corrEntry`. -/
def calculateCorrelations (sqrtFn : ℚ → ℚ)
    (results : List (String × List ℚ)) :
    List (String × List (String × ℚ)) :=
  (List.range results.length).map (fun i =>
    ((results[i]?.getD ("", [])).1,
      (List.range results.length).map (fun j =>
        ((results[j]?.getD ("", [])).1, corrEntry sqrtFn results i j))))

/-- C8: provided `sqrtFn 0 = 0` (true of `np.sqrt`), every diagonal entry of
the correlation computation is exactly 1, and every off-diagonal entry whose
truncated histories include one of zero variance (constant or empty) is
exactly 0. -/
theorem correlation_matrix_entries (sqrtFn : ℚ → ℚ)
    (results : List (String × List ℚ)) (i j : Nat)
    (hs : sqrtFn 0 = 0) (hij : i ≠ j)
    (hdeg :
      variance ((results[i]?.getD ("", [])).2.take
          (min (results[i]?.getD ("", [])).2.length
            (results[j]?.getD ("", [])).2.length)) = 0 ∨
      variance ((results[j]?.getD ("", [])).2.take
          (min (results[i]?.getD ("", [])).2.length
            (results[j]?.getD ("", [])).2.length)) = 0) :
    (∀ k : Nat, corrEntry sqrtFn results k k = 1) ∧
    corrEntry sqrtFn results i j = 0 := by
  constructor
  · intro k
    unfold corrEntry
    rw [if_pos rfl]
  · unfold corrEntry
    rw [if_neg hij]
    by_cases hmin :
        min (results[i]?.getD ("", [])).2.length
          (results[j]?.getD ("", [])).2.length = 0
    · rw [if_pos hmin]
    · rw [if_neg hmin, if_pos]
      rcases hdeg with h | h
      · exact Or.inl (by rw [h, hs])
      · exact Or.inr (by rw [h, hs])

/-- A concrete correlation input: a constant first portfolio history and a
non-constant second one. -/
def constAndRampResults : List (String × List ℚ) := [("a", [1, 1]), ("b", [2, 3])]

/-- Witness for C8 with sqrt taken as the identity (which fixes 0). -/
theorem correlation_matrix_entries_witness :
    (id (0 : ℚ) = 0 ∧ (0 : Nat) ≠ 1 ∧
      variance ((constAndRampResults[0]?.getD ("", [])).2.take
        (min (constAndRampResults[0]?.getD ("", [])).2.length
          (constAndRampResults[1]?.getD ("", [])).2.length)) = 0) ∧
    corrEntry id constAndRampResults 0 0 = 1 ∧
    corrEntry id constAndRampResults 0 1 = 0 := by
  have hvar : variance ((constAndRampResults[0]?.getD ("", [])).2.take
      (min (constAndRampResults[0]?.getD ("", [])).2.length
        (constAndRampResults[1]?.getD ("", [])).2.length)) = 0 := by
    norm_num [constAndRampResults, variance, listMean]
  have h := correlation_matrix_entries id constAndRampResults 0 1
    rfl (by norm_num) (Or.inl hvar)
  exact ⟨⟨rfl, by norm_num, hvar⟩, h.1 0, h.2⟩

/-- A single ASCII apostrophe (code 39), used to build Python's quoted
error message without a bare apostrophe in the source text. -/
def q39 : String := String.singleton (Char.ofNat 39)

/-- The message of `ValueError(f"Algorithm '{algorithm_name}' not found in
registry.")` (backtester.py line 334). -/
def algoNotFoundMsg (n : String) : String :=
  "Algorithm " ++ q39 ++ n ++ q39 ++ " not found in registry."

/-- The metadata names registered by `initialize_registry`
(plugin_loader.py lines 13-28), in registration order. -/
def registryNames : List String :=
  ["aavc_static", "aavc_dynamic", "aavc_ma", "aavc_highest_reset",
   "dca", "buy_and_hold", "minus_five_percent_rule"]

/-- `ALGORITHM_REGISTRY.get_algorithm(name) is not None`: lookup succeeds
exactly for the registered metadata names. -/
def isRegistered (n : String) : Bool := registryNames.contains n

/-- The per-algorithm loop of `run_comparison_backtest`
(backtester.py lines 331-356), with the simulation abstracted as `sim`
(its result is irrelevant to the control flow): look the name up in the
registry — raising `ValueError` (modelled as `Except.error`) when absent —
then run the backtest and append its result.  `validate_parameters` is the
`BaseAlgorithm` default, which always returns True, so the invalid-parameter
raise at line 349 is unreachable for the registered strategies. -/
def runAlgorithms {α : Type} (sim : String → α) :
    List String → List (String × α) → Except String (List (String × α))
  | [], acc => Except.ok acc
  | n :: rest, acc =>
      if isRegistered n then runAlgorithms sim rest (acc ++ [(n, sim n)])
      else Except.error (algoNotFoundMsg n)

/-- The built-in default strategy set (backtester.py line 326). -/
def defaultAlgorithmNames : List String := ["aavc", "dca", "buy_and_hold"]

/-- `run_comparison_backtest` (backtester.py lines 292-361) after the data
fetch: the fetched price history is an argument; an empty history raises;
`None` or an empty algorithm list selects the default set; then the
per-algorithm loop runs.  The final `_analyze_results` aggregation cannot
fail and is modelled by the result association list itself. -/
def runComparisonBacktest {α : Type} (sim : String → α) (price_history : List ℚ)
    (algorithm_names : Option (List String)) :
    Except String (List (String × α)) :=
  if price_history = [] then
    Except.error "No price data available for the specified period."
  else
    let names :=
      match algorithm_names with
      | none => defaultAlgorithmNames
      | some l => if l.length = 0 then defaultAlgorithmNames else l
    runAlgorithms sim names []

/-- How many per-algorithm simulations the loop executes before it stops
(all of them when every name is registered; on an unknown name the loop
raises before simulating that name). -/
def simsRunBeforeFailure (names : List String) : Nat :=
  match names with
  | [] => 0
  | n :: rest => if isRegistered n then 1 + simsRunBeforeFailure rest else 0

/-- Helper: the loop fails with the message naming the first unregistered
name whenever one exists, regardless of the accumulator. -/
theorem runAlgorithms_error {α : Type} (sim : String → α) :
    ∀ (l : List String) (acc : List (String × α)),
      (∃ n ∈ l, isRegistered n = false) →
      ∃ m, l.find? (fun n => !isRegistered n) = some m ∧
        runAlgorithms sim l acc = Except.error (algoNotFoundMsg m) := by
  intro l
  induction l with
  | nil =>
      intro acc h
      rcases h with ⟨n, hn, _⟩
      exact absurd hn (List.not_mem_nil n)
  | cons n rest ih =>
      intro acc h
      cases hreg : isRegistered n with
      | false =>
          refine ⟨n, ?_, ?_⟩
          · rw [List.find?_cons_of_pos]
            rw [hreg]
            rfl
          · unfold runAlgorithms
            rw [hreg]
            simp
      | true =>
          have hrest : ∃ m ∈ rest, isRegistered m = false := by
            rcases h with ⟨m, hm, hmf⟩
            rcases List.mem_cons.mp hm with he | he
            · rw [he] at hmf; rw [hmf] at hreg; cases hreg
            · exact ⟨m, he, hmf⟩
          rcases ih (acc ++ [(n, sim n)]) hrest with ⟨m, hfind, herr⟩
          refine ⟨m, ?_, ?_⟩
          · rw [List.find?_cons_of_neg]
            · exact hfind
            · simp [hreg]
          · unfold runAlgorithms
            rw [hreg]
            simpa using herr

/-- Helper: the number of simulations executed equals the number of
registered names before the first unregistered one. -/
theorem simsRunBeforeFailure_eq_takeWhile (names : List String) :
    simsRunBeforeFailure names =
      (names.takeWhile (fun n => isRegistered n)).length := by
  induction names with
  | nil => rfl
  | cons n rest ih =>
      unfold simsRunBeforeFailure
      cases hreg : isRegistered n with
      | false =>
          rw [List.takeWhile_cons_of_neg]
          · simp
          · simp [hreg]
      | true =>
          rw [List.takeWhile_cons_of_pos]
          · simp [ih]
            omega
          · simp [hreg]

/-- C6 counterexample: for the request ["dca", "nonexistent"] the comparison
call does fail (with the message naming the missing strategy, and no result
list is returned), but NOT before any simulation executes — the dca
simulation runs first (one simulation executed before the failure). -/
theorem comparison_runs_sim_before_failure :
    runComparisonBacktest (fun n => n) [100] (some ["dca", "nonexistent"]) =
      Except.error (algoNotFoundMsg "nonexistent") ∧
    simsRunBeforeFailure ["dca", "nonexistent"] = 1 := by
  constructor
  · rfl
  · rfl

/-- C6 amended: whenever the requested list contains an unregistered name
the whole comparison call returns an error naming the FIRST unregistered
name in the list (so no partial ComparisonResult is ever returned), but the
simulations of the registered names preceding that first unregistered name
are executed before the failure occurs. -/
theorem comparison_fails_on_unknown {α : Type} (sim : String → α)
    (prices : List ℚ) (names : List String)
    (hp : prices ≠ []) (hn : ∃ n ∈ names, isRegistered n = false) :
    (∃ m, names.find? (fun n => !isRegistered n) = some m ∧
      isRegistered m = false ∧ m ∈ names ∧
      runComparisonBacktest sim prices (some names) =
        Except.error (algoNotFoundMsg m)) ∧
    simsRunBeforeFailure names =
      (names.takeWhile (fun n => isRegistered n)).length := by
  refine ⟨?_, simsRunBeforeFailure_eq_takeWhile names⟩
  rcases runAlgorithms_error sim names [] hn with ⟨m, hfind, herr⟩
  have hmem : m ∈ names := List.mem_of_find?_eq_some hfind
  have hmf : isRegistered m = false := by
    have := List.find?_some hfind
    simpa using this
  refine ⟨m, hfind, hmf, hmem, ?_⟩
  unfold runComparisonBacktest
  rw [if_neg hp]
  have hlen : names.length ≠ 0 := by
    rcases hn with ⟨n, hn, _⟩
    intro h0
    rw [List.length_eq_zero] at h0
    rw [h0] at hn
    exact absurd hn (List.not_mem_nil n)
  simp only [if_neg hlen]
  exact herr

/-- Witness for C6 (amended): the request ["dca", "nonexistent"] with a
one-point price history. -/
theorem comparison_fails_on_unknown_witness :
    (([100] : List ℚ) ≠ [] ∧
      ∃ n ∈ ["dca", "nonexistent"], isRegistered n = false) ∧
    (∃ m, (["dca", "nonexistent"].find? (fun n => !isRegistered n)) = some m ∧
      isRegistered m = false ∧ m ∈ ["dca", "nonexistent"] ∧
      runComparisonBacktest (fun n => n) [100] (some ["dca", "nonexistent"]) =
        Except.error (algoNotFoundMsg m)) := by
  have hp : ([100] : List ℚ) ≠ [] := by simp
  have hn : ∃ n ∈ ["dca", "nonexistent"], isRegistered n = false :=
    ⟨"nonexistent", by simp, rfl⟩
  exact ⟨⟨hp, hn⟩,
    (comparison_fails_on_unknown (fun n => n) [100] ["dca", "nonexistent"]
      hp hn).1⟩

/-- C10: the name "aavc" is absent from the registry built by
`initialize_registry` (which registers aavc_static, aavc_dynamic, aavc_ma,
aavc_highest_reset, dca, buy_and_hold, minus_five_percent_rule), and since
the built-in default set is ["aavc", "dca", "buy_and_hold"], calling
`run_comparison_backtest` with algorithm_names None or [] on any non-empty
price data always fails immediately with the error naming "aavc" — no
ComparisonResult can ever be produced by the default comparison. -/
theorem default_comparison_always_fails {α : Type} (sim : String → α)
    (prices : List ℚ) (hp : prices ≠ []) :
    isRegistered "aavc" = false ∧
    defaultAlgorithmNames = ["aavc", "dca", "buy_and_hold"] ∧
    runComparisonBacktest sim prices none =
      Except.error (algoNotFoundMsg "aavc") ∧
    runComparisonBacktest sim prices (some []) =
      Except.error (algoNotFoundMsg "aavc") := by
  refine ⟨rfl, rfl, ?_, ?_⟩
  · unfold runComparisonBacktest
    rw [if_neg hp]
    rfl
  · unfold runComparisonBacktest
    rw [if_neg hp]
    rfl

/-- Witness for C10 at the one-point price history [100]. -/
theorem default_comparison_always_fails_witness :
    (([100] : List ℚ) ≠ []) ∧
    isRegistered "aavc" = false ∧
    runComparisonBacktest (fun n => n) [100] none =
      Except.error (algoNotFoundMsg "aavc") ∧
    runComparisonBacktest (fun n => n) [100] (some []) =
      Except.error (algoNotFoundMsg "aavc") := by
  have hp : ([100] : List ℚ) ≠ [] := by simp
  have h := default_comparison_always_fails (fun n => n) [100] hp
  exact ⟨hp, h.1, h.2.2.1, h.2.2.2⟩
